import Mathlib

/-!
Verification of the Jira worklog dashboard repository.

The development is a shallow embedding of the Python sources
(`jira_client.py`, `app.py`) into Lean 4:

* Python/JSON values are modelled by the inductive `PyVal`; Python `dict.get`,
  truthiness, iteration and subscripting are modelled by explicit total
  functions returning `Option` where the Python operation can raise.
* The HTTP layer (`requests`) is modelled by a `Resp` record supplied as an
  argument: `status` (the numeric status code), `text` (the raw body), and
  `json` (the parsed body, `Option.none` when `resp.json()` would raise).
  `resp.ok` is `status_code < 400`, as documented by the `requests` library.
* A raised Python exception is modelled by `PyExn` (class name and message);
  fallible client operations return `Except PyExn _`.
* Python `str` values passing through `str.encode()` / `bytes.decode()` are
  modelled by their UTF-8 byte sequences (`List Nat`), and Python `float`
  arithmetic in `update_worklog` is modelled by exact rationals.
-/

/-- Model of a Python value / parsed JSON value (as used by this program;
the program never handles JSON floats). -/
inductive PyVal where
  | none : PyVal
  | bool : Bool → PyVal
  | int : Int → PyVal
  | str : String → PyVal
  | list : List PyVal → PyVal
  | dict : List (String × PyVal) → PyVal

/-- Lookup of a key in a (string-keyed) Python dict, first match wins. -/
def lookupV : List (String × PyVal) → String → Option PyVal
  | [], _ => Option.none
  | (k, v) :: rest, key => if k = key then some v else lookupV rest key

/-- Python truthiness (`bool(v)`) for the modelled values. -/
def pyFalsy : PyVal → Bool
  | PyVal.none => true
  | PyVal.bool b => !b
  | PyVal.int n => n == 0
  | PyVal.str s => s == ""
  | PyVal.list xs => xs.isEmpty
  | PyVal.dict es => es.isEmpty

/-- Python iteration `for x in v`: the sequence of produced elements, or
`Option.none` when `v` is not iterable (TypeError).  Iterating a `str`
yields its characters as one-character strings; iterating a `dict` yields
its keys. -/
def pyIter : PyVal → Option (List PyVal)
  | PyVal.list xs => some xs
  | PyVal.str s => some (s.toList.map (fun c => PyVal.str c.toString))
  | PyVal.dict es => some (es.map (fun e => PyVal.str e.1))
  | _ => Option.none

/-- Python subscripting `v[0]`: `Option.none` models a raised exception
(IndexError on an empty list / empty string, TypeError or KeyError
otherwise). -/
def pyIndex0 : PyVal → Option PyVal
  | PyVal.list (x :: _) => some x
  | PyVal.str s =>
    match s.toList with
    | c :: _ => some (PyVal.str c.toString)
    | [] => Option.none
  | _ => Option.none

/-- Python `repr` of a modelled value (string escaping inside `repr` of a
`str` is elided; no theorem below depends on it). -/
def pyRepr : PyVal → String
  | PyVal.none => "None"
  | PyVal.bool b => cond b "True" "False"
  | PyVal.int n => toString n
  | PyVal.str s => "'" ++ s ++ "'"
  | PyVal.list xs =>
      "[" ++ String.intercalate ", " (xs.attach.map (fun x => pyRepr x.1)) ++ "]"
  | PyVal.dict es =>
      "\x7b" ++ String.intercalate ", "
        (es.attach.map (fun e => "'" ++ e.1.1 ++ "': " ++ pyRepr e.1.2)) ++ "\x7d"
decreasing_by
  · have := List.sizeOf_lt_of_mem x.2
    simp_wf
    omega
  · obtain ⟨⟨k, v⟩, hmem⟩ := e
    have := List.sizeOf_lt_of_mem hmem
    simp_wf
    simp only [Prod.mk.sizeOf_spec] at this
    omega

/-- Python `str(v)` (as interpolated by an f-string). -/
def pyStr : PyVal → String
  | PyVal.str s => s
  | v => pyRepr v

/-- Model of a `requests` HTTP response as seen by the client code:
`json = Option.none` models a body on which `resp.json()` raises. -/
structure Resp where
  status : Nat
  text : String
  json : Option PyVal

/-- `resp.ok` of the `requests` library: true iff `status_code < 400`. -/
def respOk (r : Resp) : Bool := r.status < 400

/-- A raised Python exception: its class name and its message. -/
structure PyExn where
  cls : String
  msg : String
deriving DecidableEq

/-!
## `jira_client.py` — `JiraClient.__init__`, `_request`, `_raise`
-/

/-- Python string truthiness of an optional-string argument (`None` and `""`
are falsy). -/
def pyTruthyStr : Option String → Bool
  | Option.none => false
  | some s => !(s == "")

/-- `base_url.rstrip("/")`: remove all trailing `/` characters. -/
def rstripSlash (s : String) : String :=
  String.mk (s.toList.reverse.dropWhile (fun c => c = '/')).reverse

/-- The state a `JiraClient` instance holds after `__init__`
(`jira_client.py`, lines 7–39). -/
structure JiraClient where
  base_url : String
  verify_ssl : Bool
  headers : List (String × String)
  auth : Option (String × String)

/-- The three headers set unconditionally by `__init__`. -/
def baseHeaders : List (String × String) :=
  [("Accept", "application/json"),
   ("Content-Type", "application/json"),
   ("User-Agent", "StreamlitJiraApp/1.0")]

/-- `JiraClient.__init__(base_url, email, api_token, jwt_token, verify_ssl)`. -/
def jiraClientInit (base_url : String) (email api_token jwt_token : Option String)
    (verify_ssl : Bool) : JiraClient :=
  if pyTruthyStr jwt_token then
    { base_url := rstripSlash base_url
      verify_ssl := verify_ssl
      headers := baseHeaders ++ [("Authorization", "JWT " ++ jwt_token.getD "")]
      auth := Option.none }
  else
    { base_url := rstripSlash base_url
      verify_ssl := verify_ssl
      headers := baseHeaders
      auth :=
        if pyTruthyStr email && pyTruthyStr api_token then
          some (email.getD "", api_token.getD "")
        else Option.none }

/-- The keyword arguments `_request` passes to `requests.request`:
`auth = Option.none` models the `auth` kwarg being absent. -/
structure Kwargs where
  method : String
  url : String
  headers : List (String × String)
  verify : Bool
  auth : Option (String × String)

/-- The kwargs `_request(method, url)` sends (`jira_client.py`, lines 41–53):
headers and `verify` always come from the instance, `auth` is attached only
when `self.auth` is truthy (an `HTTPBasicAuth` object is always truthy). -/
def requestKwargs (c : JiraClient) (method url : String) : Kwargs :=
  { method := method
    url := url
    headers := c.headers
    verify := c.verify_ssl
    auth := if c.auth.isSome then c.auth else Option.none }

/-- The message `_raise` extracts from a non-ok response
(`jira_client.py`, lines 65–75): `resp.json().get("errorMessages", [resp.text])[0]`,
falling back to `resp.text` when any step raises. -/
def jiraErrMsg (r : Resp) : String :=
  match r.json with
  | Option.none => r.text
  | some (PyVal.dict d) =>
    match pyIndex0 ((lookupV d "errorMessages").getD (PyVal.list [PyVal.str r.text])) with
    | some v => pyStr v
    | Option.none => r.text
  | some _ => r.text

/-- `JiraClient._raise(resp)` (`jira_client.py`, lines 59–77): raises a plain
`Exception` for every non-ok response, returns nothing otherwise. -/
def raiseForStatus (r : Resp) : Option PyExn :=
  if respOk r then Option.none
  else some { cls := "Exception"
              msg := "Jira API Error " ++ toString r.status ++ ": " ++ jiraErrMsg r }

/-- `resp.json()` raising `JSONDecodeError` on an unparsable body. -/
def respJson (r : Resp) : Except PyExn PyVal :=
  match r.json with
  | some j => Except.ok j
  | Option.none => Except.error { cls := "JSONDecodeError", msg := "Expecting value" }

/-- `self._request(method, url, ...)` given the server's response: raises for
a non-ok status, otherwise hands the response back. -/
def runRequest (r : Resp) : Except PyExn Resp :=
  match raiseForStatus r with
  | some e => Except.error e
  | Option.none => Except.ok r

/-- `self._request(...).json()`. -/
def requestJson (r : Resp) : Except PyExn PyVal :=
  match runRequest r with
  | Except.error e => Except.error e
  | Except.ok r' => respJson r'

/-!
## `jira_client.py` — the API operations

Each operation is a function of the client, its arguments, and the server's
response(s); the URL it targets is recorded through `opUrl` below.
-/

/-- `get_myself` (`jira_client.py`, lines 81–87). -/
def get_myself (r : Resp) : Except PyExn PyVal :=
  requestJson r

/-- `.json().get(key, [])` — raises `AttributeError` when the parsed body is
not a dict. -/
def jsonGetListField (key : String) (r : Resp) : Except PyExn PyVal :=
  match requestJson r with
  | Except.error e => Except.error e
  | Except.ok (PyVal.dict d) => Except.ok ((lookupV d key).getD (PyVal.list []))
  | Except.ok _ =>
      Except.error { cls := "AttributeError", msg := "no attribute 'get'" }

/-- `get_projects` (`jira_client.py`, lines 89–95). -/
def get_projects (r : Resp) : Except PyExn PyVal :=
  jsonGetListField "values" r

/-- The default field list of `search_issues`. -/
def defaultFields : List String :=
  ["summary", "project", "issuetype", "assignee", "status"]

/-- The JSON payload `search_issues` POSTs (`jira_client.py`, lines 99–117). -/
def search_issues_payload (jql : String) (max_results : Int)
    (fields : Option (List String)) : PyVal :=
  let fs := match fields with
    | some l => if l.isEmpty then defaultFields else l
    | Option.none => defaultFields
  PyVal.dict
    [("jql", PyVal.str jql),
     ("maxResults", PyVal.int max_results),
     ("fields", PyVal.list (fs.map PyVal.str))]

/-- `search_issues` (`jira_client.py`, lines 99–119): returns
`.json().get("issues", [])`. -/
def search_issues (r : Resp) : Except PyExn PyVal :=
  jsonGetListField "issues" r

/-- `get_my_issues` (`jira_client.py`, lines 121–129): defaults the JQL when
the argument is falsy and delegates to `search_issues`. -/
def get_my_issues_jql (jql : Option String) : String :=
  match jql with
  | some s => if s = "" then "assignee = currentUser() ORDER BY updated DESC" else s
  | Option.none => "assignee = currentUser() ORDER BY updated DESC"

/-- `get_my_issues` result on a response. -/
def get_my_issues (r : Resp) : Except PyExn PyVal :=
  search_issues r

/-- The single-paragraph ADF document the client builds for descriptions and
comments. -/
def adfDoc (text : String) : PyVal :=
  PyVal.dict
    [("type", PyVal.str "doc"), ("version", PyVal.int 1),
     ("content", PyVal.list
       [PyVal.dict
         [("type", PyVal.str "paragraph"),
          ("content", PyVal.list
            [PyVal.dict [("type", PyVal.str "text"), ("text", PyVal.str text)]])]])]

/-- The JSON payload `create_issue` POSTs (`jira_client.py`, lines 131–161):
the epic-name custom field is added only when `issue_type == "Epic"` and
`epic_name` is truthy. -/
def create_issue_payload (project_key summary : String) (description : Option String)
    (issue_type : String) (epic_name : Option String) : PyVal :=
  let fields :=
    [("project", PyVal.dict [("key", PyVal.str project_key)]),
     ("summary", PyVal.str summary),
     ("description", adfDoc (match description with
        | some s => if s = "" then "" else s
        | Option.none => "")),
     ("issuetype", PyVal.dict [("name", PyVal.str issue_type)])]
  let fields :=
    if issue_type = "Epic" && pyTruthyStr epic_name then
      fields ++ [("customfield_10011", PyVal.str (epic_name.getD ""))]
    else fields
  PyVal.dict [("fields", PyVal.dict fields)]

/-- `create_issue` result on a response (`jira_client.py`, line 163). -/
def create_issue (r : Resp) : Except PyExn PyVal :=
  requestJson r

/-- The JSON payload `add_worklog` POSTs (`jira_client.py`, lines 193–209):
the comment is wrapped in an ADF document only when truthy. -/
def add_worklog_payload (time_spent : String) (comment : Option String)
    (started : String) : PyVal :=
  let base := [("timeSpent", PyVal.str time_spent), ("started", PyVal.str started)]
  if pyTruthyStr comment then
    PyVal.dict (base ++ [("comment", adfDoc (comment.getD ""))])
  else
    PyVal.dict base

/-- `add_worklog` result on a response. -/
def add_worklog (r : Resp) : Except PyExn PyVal :=
  requestJson r

/-- Python `int(q)`: truncation toward zero.  `update_worklog` applies it to
`float(hours) * 3600`; float arithmetic is modelled by exact rationals. -/
def pyIntTrunc (q : ℚ) : ℤ :=
  if 0 ≤ q then ⌊q⌋ else ⌈q⌉

/-- `time_seconds = int(float(hours) * 3600)` (`jira_client.py`, line 219). -/
def update_worklog_seconds (hours : ℚ) : ℤ :=
  pyIntTrunc (hours * 3600)

/-- The JSON payload `update_worklog` PUTs (`jira_client.py`, lines 213–233). -/
def update_worklog_payload (hours : ℚ) (comment : String) : PyVal :=
  PyVal.dict
    [("timeSpentSeconds", PyVal.int (update_worklog_seconds hours)),
     ("comment", adfDoc comment)]

/-- `update_worklog` result on a response (`jira_client.py`, line 235). -/
def update_worklog (r : Resp) : Except PyExn PyVal :=
  requestJson r

/-- `delete_worklog` (`jira_client.py`, lines 237–243): returns the response
itself, no `.json()` call. -/
def delete_worklog (r : Resp) : Except PyExn Resp :=
  runRequest r

/-!
## `jira_client.py` — `get_worklogs` pagination loop (lines 167–191)

The loop is embedded with explicit fuel; `Option.none` means the fuel ran
out before the loop's own exit condition fired, so termination statements
are honest.  The second component of a successful result counts the page
requests issued.
-/

/-- The `TypeError` raised when `extend` gets a non-iterable or `>=` compares
incompatible types. -/
def typeErrorExn : PyExn :=
  { cls := "TypeError", msg := "unsupported operand type" }

/-- The `AttributeError` raised by `.get` on a non-dict. -/
def attrErrorExn : PyExn :=
  { cls := "AttributeError", msg := "no attribute 'get'" }

/-- One-step-at-a-time embedding of the `while True` loop of `get_worklogs`:
`server startAt` is the response to the page request with
`params = (startAt, maxResults := 100)`. -/
def get_worklogs_go (server : Nat → Resp) :
    Nat → Nat → List PyVal → Nat → Option (Except PyExn (List PyVal × Nat))
  | 0, _, _, _ => Option.none
  | fuel + 1, startAt, acc, count =>
    match requestJson (server startAt) with
    | Except.error e => some (Except.error e)
    | Except.ok (PyVal.dict d) =>
      match pyIter ((lookupV d "worklogs").getD (PyVal.list [])) with
      | Option.none => some (Except.error typeErrorExn)
      | some ws =>
        let acc2 := acc ++ ws
        match (lookupV d "total").getD (PyVal.int 0) with
        | PyVal.int t =>
          if t ≤ (startAt + 100 : Int) then some (Except.ok (acc2, count + 1))
          else get_worklogs_go server fuel (startAt + 100) acc2 (count + 1)
        | PyVal.bool b =>
          if (cond b 1 0 : Int) ≤ (startAt + 100 : Int) then
            some (Except.ok (acc2, count + 1))
          else get_worklogs_go server fuel (startAt + 100) acc2 (count + 1)
        | _ => some (Except.error typeErrorExn)
    | Except.ok _ => some (Except.error attrErrorExn)

/-- `get_worklogs(issue_key)` given the paging server and enough fuel. -/
def get_worklogs (server : Nat → Resp) (fuel : Nat) :
    Option (Except PyExn (List PyVal × Nat)) :=
  get_worklogs_go server fuel 0 [] 0

/-- A server holding the stable worklog collection `ws`: the page at
`startAt` carries the up-to-100 entries starting there, in collection
order, and reports the stable total on every page. -/
def worklogServer (ws : List PyVal) (startAt : Nat) : Resp :=
  { status := 200
    text := ""
    json := some (PyVal.dict
      [("worklogs", PyVal.list ((ws.drop startAt).take 100)),
       ("total", PyVal.int ws.length)]) }

/-- The number of page requests the loop needs from offset `s` against a
total of `L` entries: `max 1 ⌈(L − s)/100⌉`. -/
def pagesNeeded (L s : Nat) : Nat := max 1 ((L - s + 99) / 100)

/-!
## `app.py` — `extract_comment` (lines 57–71)
-/

/-- Python `item.get("type") == "text"` (equality of a value with the string
literal). -/
def isTextTag : PyVal → Bool
  | PyVal.str s => s == "text"
  | _ => false

/-- Sequential traversal with early exit on a raised exception, as a
Python `for` loop that appends per-element results behaves. -/
def optMapM (f : A → Option B) : List A → Option (List B)
  | [] => some []
  | a :: l => do
    let b ← f a
    let bs ← optMapM f l
    some (b :: bs)

/-- The inner `for item in block.get("content", [])` loop body: the values
appended to `texts` for one block, or `Option.none` when an access raises. -/
def extractBlockTexts : PyVal → Option (List PyVal)
  | PyVal.dict bes => do
    let items ← pyIter ((lookupV bes "content").getD (PyVal.list []))
    let texts ← optMapM (fun item =>
      match item with
      | PyVal.dict ies =>
        if isTextTag ((lookupV ies "type").getD PyVal.none) then
          some [(lookupV ies "text").getD (PyVal.str "")]
        else some []
      | _ => Option.none) items
    some texts.flatten
  | _ => Option.none

/-- `extract_comment(comment)` (`app.py`, lines 57–71).  `Option.none`
models a raised exception; `some s` a returned string.  `" ".join(texts)`
raises when a collected value is not a string. -/
def extract_comment (comment : PyVal) : Option String :=
  if pyFalsy comment then some ""
  else
    match comment with
    | PyVal.dict es => do
      let blocks ← pyIter ((lookupV es "content").getD (PyVal.list []))
      let collected ← optMapM extractBlockTexts blocks
      let strs ← optMapM (fun v =>
        match v with
        | PyVal.str s => some s
        | _ => Option.none) collected.flatten
      some (String.intercalate " " strs)
    | _ => some ""

/-!
## `app.py` — `encode` / `decode` (lines 27–39)

`encode(s) = base64.urlsafe_b64encode(s.encode()).decode()` and
`decode(s) = base64.urlsafe_b64decode(s.encode()).decode()` with a bare
`except` returning `""`.  Python `str` values crossing the
`str.encode()`/`bytes.decode()` boundary are modelled by their UTF-8 byte
sequences (`List Nat`); `bytes.decode()` raises on invalid UTF-8.

`base64.b64decode` (CPython `binascii.a2b_base64`, non-strict mode) is
modelled faithfully: characters outside the alphabet are discarded, bytes
are emitted incrementally per data character, a quad completed by padding
stops all further processing, and leftover data characters at the end raise
`binascii.Error`.
-/

/-- The standard base64 alphabet. -/
def stdAlphabet : List Char :=
  ("ABCDEFGHIJKLMNOPQRSTUVWXYZabcdefghijklmnopqrstuvwxyz0123456789+/").toList

/-- The 6-bit value encoded as a standard-alphabet character. -/
def stdEncChar (v : Nat) : Char := stdAlphabet.getD v 'A'

/-- `table_a2b_base64`: the 6-bit value of a character, `Option.none` for
characters outside the standard alphabet (they are discarded in non-strict
mode). -/
def stdTable (c : Char) : Option Nat := stdAlphabet.indexOf? c

/-- The `+/ → -_` translation applied by `urlsafe_b64encode`. -/
def toUrlsafeChar (c : Char) : Char :=
  if c = '+' then '-' else if c = '/' then '_' else c

/-- The `-_ → +/` translation applied by `urlsafe_b64decode`. -/
def fromUrlsafeChar (c : Char) : Char :=
  if c = '-' then '+' else if c = '_' then '/' else c

/-- `base64.b64encode` on a byte sequence, as characters. -/
def b64encodeChars : List Nat → List Char
  | [] => []
  | [a] => [stdEncChar (a / 4), stdEncChar (a % 4 * 16), '=', '=']
  | [a, b] => [stdEncChar (a / 4), stdEncChar (a % 4 * 16 + b / 16),
               stdEncChar (b % 16 * 4), '=']
  | a :: b :: c :: rest =>
      stdEncChar (a / 4) :: stdEncChar (a % 4 * 16 + b / 16) ::
      stdEncChar (b % 16 * 4 + c / 64) :: stdEncChar (c % 64) ::
      b64encodeChars rest

/-- CPython `binascii.a2b_base64` in non-strict mode, as a state machine over
the input characters: `qp` is the position within the current quad, `lc` the
pending bits, `pads` the pads seen in the current quad, `acc` the output
bytes in reverse.  `Option.none` models a raised `binascii.Error`. -/
def a2bRun : List Char → Nat → Nat → Nat → List Nat → Option (List Nat)
  | [], qp, _, _, acc => if qp = 0 then some acc.reverse else Option.none
  | ch :: rest, qp, lc, pads, acc =>
    if ch = '=' then
      if 2 ≤ qp then
        if 4 ≤ qp + (pads + 1) then some acc.reverse
        else a2bRun rest qp lc (pads + 1) acc
      else a2bRun rest qp lc pads acc
    else
      match stdTable ch with
      | Option.none => a2bRun rest qp lc pads acc
      | some v =>
        match qp with
        | 0 => a2bRun rest 1 v 0 acc
        | 1 => a2bRun rest 2 (v % 16) 0 ((lc * 4 + v / 16) :: acc)
        | 2 => a2bRun rest 3 (v % 4) 0 ((lc * 16 + v / 4) :: acc)
        | _ => a2bRun rest 0 0 0 ((lc * 64 + v) :: acc)

/-- `base64.urlsafe_b64encode`: standard encoding, then char translation. -/
def urlsafe_b64encode (bs : List Nat) : List Char :=
  (b64encodeChars bs).map toUrlsafeChar

/-- `base64.urlsafe_b64decode`: char translation, then standard decoding. -/
def urlsafe_b64decode (cs : List Char) : Option (List Nat) :=
  a2bRun (cs.map fromUrlsafeChar) 0 0 0 []

/-- Whether a continuation byte is in `80..BF`. -/
def utf8ContB (b : Nat) : Bool := 128 ≤ b && b ≤ 191

/-- CPython's UTF-8 validation (`bytes.decode()` succeeds), rejecting
overlong forms, surrogates, and code points above U+10FFFF. -/
def utf8Valid : List Nat → Bool
  | [] => true
  | b :: rest =>
    if b ≤ 127 then utf8Valid rest
    else if b ≤ 193 then false
    else if b ≤ 223 then
      match rest with
      | b1 :: rest1 => utf8ContB b1 && utf8Valid rest1
      | [] => false
    else if b ≤ 239 then
      match rest with
      | b1 :: b2 :: rest2 =>
          (if b = 224 then (160 ≤ b1 && b1 ≤ 191 : Bool)
           else if b = 237 then (128 ≤ b1 && b1 ≤ 159 : Bool)
           else utf8ContB b1) && utf8ContB b2 && utf8Valid rest2
      | _ => false
    else if b ≤ 244 then
      match rest with
      | b1 :: b2 :: b3 :: rest3 =>
          (if b = 240 then (144 ≤ b1 && b1 ≤ 191 : Bool)
           else if b = 244 then (128 ≤ b1 && b1 ≤ 143 : Bool)
           else utf8ContB b1) && utf8ContB b2 && utf8ContB b3 && utf8Valid rest3
      | _ => false
    else false

/-- `app.py` `encode(s)` on the UTF-8 bytes of `s` (the final `.decode()` of
the ASCII base64 text is the identity on this representation). -/
def appEncode (bs : List Nat) : List Char :=
  urlsafe_b64encode bs

/-- `app.py` `decode(s)` on characters, returning the UTF-8 bytes of the
resulting string: the bare `except` maps both a `binascii.Error` and a
`UnicodeDecodeError` to `""`. -/
def appDecode (cs : List Char) : List Nat :=
  match urlsafe_b64decode cs with
  | Option.none => []
  | some bs => if utf8Valid bs then bs else []

/-- Modelled from the spec: an input is *valid urlsafe base64* when it is a
padded sequence of quads over the urlsafe alphabet — every character is in
the urlsafe alphabet or `=`, the length is a multiple of four, and `=` is
only terminal padding. -/
def specValidUrlsafeB64 (cs : List Char) : Bool :=
  (cs.all fun c => (stdTable (fromUrlsafeChar c)).isSome || c = '=') &&
  cs.length % 4 == 0 &&
  ((cs.dropWhile fun c => (stdTable (fromUrlsafeChar c)).isSome).all fun c => c = '=') &&
  ((cs.dropWhile fun c => (stdTable (fromUrlsafeChar c)).isSome).length ≤ 2)

/-!
## Operation dispatch (for the statelessness claim)

`runOp` threads the client through any one operation of `JiraClient`,
returning the operation's outcome together with the client as it stands
afterwards; no method of the source ever assigns to `self`, which the
embedding makes explicit.
-/

/-- One invocation of a public `JiraClient` method with its arguments. -/
inductive Op where
  | getMyself
  | getProjects
  | searchIssues (jql : String) (maxResults : Int) (fields : Option (List String))
  | getMyIssues (jql : Option String) (maxResults : Int)
  | createIssue (projectKey summary : String) (description : Option String)
      (issueType : String) (epicName : Option String)
  | getWorklogs (issueKey : String)
  | addWorklog (issueKey timeSpent : String) (comment : Option String) (started : String)
  | updateWorklog (issueKey worklogId : String) (hours : ℚ) (comment : String)
  | deleteWorklog (issueKey worklogId : String)

/-- The URL each operation builds from `self.base_url`. -/
def opUrl (c : JiraClient) : Op → String
  | Op.getMyself => c.base_url ++ "/rest/api/3/myself"
  | Op.getProjects => c.base_url ++ "/rest/api/3/project/search"
  | Op.searchIssues _ _ _ => c.base_url ++ "/rest/api/3/search"
  | Op.getMyIssues _ _ => c.base_url ++ "/rest/api/3/search"
  | Op.createIssue _ _ _ _ _ => c.base_url ++ "/rest/api/3/issue"
  | Op.getWorklogs k => c.base_url ++ "/rest/api/3/issue/" ++ k ++ "/worklog"
  | Op.addWorklog k _ _ _ => c.base_url ++ "/rest/api/3/issue/" ++ k ++ "/worklog"
  | Op.updateWorklog k wid _ _ =>
      c.base_url ++ "/rest/api/3/issue/" ++ k ++ "/worklog/" ++ wid
  | Op.deleteWorklog k wid =>
      c.base_url ++ "/rest/api/3/issue/" ++ k ++ "/worklog/" ++ wid

/-- Run one operation against the server (`server n` is the response to the
operation's `n`-th request; only `get_worklogs` issues more than one) and
return its outcome together with the client afterwards. -/
def runOp (c : JiraClient) (op : Op) (server : Nat → Resp) (fuel : Nat) :
    Option (Except PyExn PyVal) × JiraClient :=
  match op with
  | Op.getMyself => (some (get_myself (server 0)), c)
  | Op.getProjects => (some (get_projects (server 0)), c)
  | Op.searchIssues _ _ _ => (some (search_issues (server 0)), c)
  | Op.getMyIssues _ _ => (some (get_my_issues (server 0)), c)
  | Op.createIssue _ _ _ _ _ => (some (create_issue (server 0)), c)
  | Op.getWorklogs _ =>
    (match get_worklogs server fuel with
     | some (Except.ok (ws, _)) => some (Except.ok (PyVal.list ws))
     | some (Except.error e) => some (Except.error e)
     | Option.none => Option.none, c)
  | Op.addWorklog _ _ _ _ => (some (add_worklog (server 0)), c)
  | Op.updateWorklog _ _ _ _ => (some (update_worklog (server 0)), c)
  | Op.deleteWorklog _ _ =>
      (some ((delete_worklog (server 0)).map (fun _ => PyVal.none)), c)

/-!
## Reference semantics for `extract_comment` (all text leaves; encoded two-level documents)
-/

/-- Modelled from the spec: all `text` leaves of a nested-content document
tree, in document order, to bounded depth (`fuel` exceeding the tree depth
collects them all). -/
def pyTextLeaves : Nat → PyVal → List String
  | 0, _ => []
  | fuel + 1, PyVal.dict es =>
    match lookupV es "type", lookupV es "text" with
    | some (PyVal.str "text"), some (PyVal.str t) => [t]
    | _, _ =>
      match lookupV es "content" with
      | some (PyVal.list xs) => (xs.map (pyTextLeaves fuel)).flatten
      | _ => []
  | _ + 1, _ => []

/-- The JSON encoding of an item `(tag, text)` in a two-level document. -/
def mkItem (it : String × String) : PyVal :=
  PyVal.dict [("type", PyVal.str it.1), ("text", PyVal.str it.2)]

/-- The JSON encoding of one block holding the given items. -/
def mkBlock (items : List (String × String)) : PyVal :=
  PyVal.dict [("type", PyVal.str "paragraph"),
              ("content", PyVal.list (items.map mkItem))]

/-- The JSON encoding of a two-level document: blocks of tagged items. -/
def mkDoc (blocks : List (List (String × String))) : PyVal :=
  PyVal.dict [("type", PyVal.str "doc"), ("version", PyVal.int 1),
              ("content", PyVal.list (blocks.map mkBlock))]

/-!
# Theorems
-/

/-- **C2 (counterexample).** `update_worklog` computes
`int(float(hours) * 3600)`, which truncates toward zero, not
`round(hours * 3600)`: at `hours = 0.00014` the seconds are `0.504`, the
code sends `0` while rounding would send `1`. -/
theorem update_worklog_not_rounded :
    update_worklog_seconds (7 / 50000) = 0 ∧
    round ((7 / 50000 : ℚ) * 3600) = 1 ∧
    update_worklog_seconds (7 / 50000) ≠ round ((7 / 50000 : ℚ) * 3600) := by
  refine ⟨?_, ?_, ?_⟩
  · norm_num [update_worklog_seconds, pyIntTrunc]
  · norm_num [round_eq]
  · norm_num [update_worklog_seconds, pyIntTrunc, round_eq]

/-- **C2 (amended).** For every value of `hours`, `update_worklog` sends
`timeSpentSeconds` equal to `int(hours * 3600)` — truncation toward zero —
and in particular `hours = 1.5` sends `5400` and `hours = 0.1` sends
`360`. -/
theorem update_worklog_truncates (hours : ℚ) (comment : String) :
    update_worklog_payload hours comment =
      PyVal.dict [("timeSpentSeconds", PyVal.int (pyIntTrunc (hours * 3600))),
                  ("comment", adfDoc comment)] ∧
    update_worklog_seconds (3 / 2) = 5400 ∧
    update_worklog_seconds (1 / 10) = 360 := by
  refine ⟨rfl, ?_, ?_⟩ <;> norm_num [update_worklog_seconds, pyIntTrunc]

/-- **C3 (counterexample).** A non-2xx response is surfaced as a plain
`Exception` — not as any of the five distinct typed error classes the claim
names: at a 401 the raised class is `Exception`. -/
theorem raise_untyped_exception :
    raiseForStatus { status := 401, text := "Unauthorized", json := Option.none } =
      some { cls := "Exception", msg := "Jira API Error 401: Unauthorized" } ∧
    ("Exception" : String) ∉
      ["AuthError", "NotFoundError", "ValidationError", "RateLimitError", "ApiError"] := by
  exact ⟨rfl, by decide⟩

/-- **C3 (amended).** Every response with status ≥ 400 (non-ok in the
`requests` sense) raises the single generic class `Exception` with message
`"Jira API Error {status}: {msg}"`, where `msg` is `errorMessages[0]` when
the body is a JSON object with a nonempty `errorMessages` list and the raw
body text when that list is empty or absent; ok responses raise nothing.
No status-based typed classification exists. -/
theorem raise_single_generic (r : Resp) :
    (respOk r = false →
      raiseForStatus r = some (PyExn.mk "Exception"
        ("Jira API Error " ++ toString r.status ++ ": " ++ jiraErrMsg r))) ∧
    (respOk r = true → raiseForStatus r = Option.none) ∧
    (∀ d m rest, r.json = some (PyVal.dict d) →
      lookupV d "errorMessages" = some (PyVal.list (PyVal.str m :: rest)) →
      jiraErrMsg r = m) ∧
    (∀ d, r.json = some (PyVal.dict d) →
      lookupV d "errorMessages" = some (PyVal.list []) →
      jiraErrMsg r = r.text) := by
  refine ⟨fun h => ?_, fun h => ?_, fun d m rest hj hl => ?_, fun d hj hl => ?_⟩
  · simp [raiseForStatus, h]
  · simp [raiseForStatus, h]
  · simp [jiraErrMsg, hj, hl, pyIndex0, pyStr]
  · simp [jiraErrMsg, hj, hl, pyIndex0]

/-- Witness for `raise_single_generic` at a concrete 404 response carrying a
server message. -/
theorem raise_single_generic_witness :
    raiseForStatus (Resp.mk 404 "nf" (some (PyVal.dict
        [("errorMessages", PyVal.list [PyVal.str "Issue does not exist"])]))) =
      some { cls := "Exception", msg := "Jira API Error 404: Issue does not exist" } := by
  have h := raise_single_generic (Resp.mk 404 "nf" (some (PyVal.dict
      [("errorMessages", PyVal.list [PyVal.str "Issue does not exist"])])))
  have h1 := h.1 (by decide)
  have h3 := h.2.2.1 _ "Issue does not exist" [] rfl rfl
  rw [h1, h3]
  rfl

/-- **C5.** Constructing the client with both a JWT token and an
email/API-token pair supplied activates exactly the bearer mode: the
`Authorization: JWT …` header is set, `self.auth` is `None`, and no request
carries basic-auth credentials. -/
theorem jwt_precedence (base email tok jwt method url : String) (verify : Bool)
    (hjwt : jwt ≠ "") (_hemail : email ≠ "") (_htok : tok ≠ "") :
    (jiraClientInit base (some email) (some tok) (some jwt) verify).auth = Option.none ∧
    ("Authorization", "JWT " ++ jwt) ∈
      (jiraClientInit base (some email) (some tok) (some jwt) verify).headers ∧
    (requestKwargs (jiraClientInit base (some email) (some tok) (some jwt) verify)
        method url).auth = Option.none := by
  have hT : pyTruthyStr (some jwt) = true := by simp [pyTruthyStr, hjwt]
  refine ⟨?_, ?_, ?_⟩ <;> simp [jiraClientInit, hT, requestKwargs, baseHeaders]

/-- Witness for `jwt_precedence` at concrete credentials. -/
theorem jwt_precedence_witness :
    (jiraClientInit "https://x.atlassian.net/" (some "a@b.c") (some "tk")
        (some "jot") true).auth = Option.none ∧
    ("Authorization", "JWT " ++ "jot") ∈
      (jiraClientInit "https://x.atlassian.net/" (some "a@b.c") (some "tk")
        (some "jot") true).headers ∧
    (requestKwargs (jiraClientInit "https://x.atlassian.net/" (some "a@b.c")
        (some "tk") (some "jot") true) "GET" "u").auth = Option.none :=
  jwt_precedence "https://x.atlassian.net/" "a@b.c" "tk" "jot" "GET" "u" true
    (by decide) (by decide) (by decide)

/-- **C10.** With no JWT token and a missing (or empty) email or API token,
construction succeeds with `auth = None`: no `Authorization` header is set
and every request is dispatched without credentials. -/
theorem missing_credentials_no_auth (base method url : String)
    (email tok : Option String) (verify : Bool)
    (h : pyTruthyStr email = false ∨ pyTruthyStr tok = false) :
    (jiraClientInit base email tok Option.none verify).auth = Option.none ∧
    (jiraClientInit base email tok Option.none verify).headers = baseHeaders ∧
    (requestKwargs (jiraClientInit base email tok Option.none verify)
        method url).auth = Option.none := by
  have hcond : (pyTruthyStr email && pyTruthyStr tok) = false := by
    rcases h with h | h <;> simp [h]
  have hjwtF : pyTruthyStr Option.none = false := rfl
  refine ⟨?_, ?_, ?_⟩ <;> simp [jiraClientInit, hjwtF, hcond, requestKwargs]

/-- Witness for `missing_credentials_no_auth`: email given, token absent. -/
theorem missing_credentials_no_auth_witness :
    (jiraClientInit "https://x" (some "a@b.c") Option.none Option.none true).auth
      = Option.none ∧
    (jiraClientInit "https://x" (some "a@b.c") Option.none Option.none true).headers
      = baseHeaders ∧
    (requestKwargs (jiraClientInit "https://x" (some "a@b.c") Option.none Option.none true)
        "GET" "u").auth = Option.none :=
  missing_credentials_no_auth "https://x" "GET" "u" (some "a@b.c") Option.none true
    (Or.inr rfl)

/-- **C8.** The client is stateless apart from its configuration: running
any operation — succeeding or raising, with any server behaviour — leaves
`base_url`, `headers`, `auth` and `verify_ssl` exactly as construction set
them. -/
theorem client_stateless (c : JiraClient) (op : Op) (server : Nat → Resp) (fuel : Nat) :
    (runOp c op server fuel).2.base_url = c.base_url ∧
    (runOp c op server fuel).2.headers = c.headers ∧
    (runOp c op server fuel).2.auth = c.auth ∧
    (runOp c op server fuel).2.verify_ssl = c.verify_ssl := by
  cases op <;> exact ⟨rfl, rfl, rfl, rfl⟩

/-- Any response with status ≥ 400 makes `.json().get(key, [])`-style
operations raise rather than return. -/
theorem jsonGetListField_error_of_ge (key : String) (r : Resp) (h : 400 ≤ r.status) :
    ∃ e, jsonGetListField key r = Except.error e := by
  have hok : respOk r = false := by simp [respOk]; omega
  exact ⟨PyExn.mk "Exception"
      ("Jira API Error " ++ toString r.status ++ ": " ++ jiraErrMsg r),
    by simp [jsonGetListField, requestJson, runRequest, raiseForStatus, hok]⟩

/-- Inversion: a value returned by `.json().get(key, [])` came from an
ok-status response whose body parsed to a dict. -/
theorem jsonGetListField_ok_inv (key : String) (r : Resp) (v : PyVal)
    (h : jsonGetListField key r = Except.ok v) :
    r.status < 400 ∧ ∃ d, r.json = some (PyVal.dict d) ∧
      (lookupV d key).getD (PyVal.list []) = v := by
  by_cases hst : r.status < 400
  · have hok : respOk r = true := by simp [respOk, hst]
    refine ⟨hst, ?_⟩
    cases hj : r.json with
    | none =>
      rw [jsonGetListField, requestJson, runRequest] at h
      simp [raiseForStatus, hok, respJson, hj] at h
    | some j =>
      cases j with
      | dict d =>
        refine ⟨d, rfl, ?_⟩
        rw [jsonGetListField, requestJson, runRequest] at h
        simp [raiseForStatus, hok, respJson, hj] at h
        exact h
      | none =>
        rw [jsonGetListField, requestJson, runRequest] at h
        simp [raiseForStatus, hok, respJson, hj] at h
      | bool b =>
        rw [jsonGetListField, requestJson, runRequest] at h
        simp [raiseForStatus, hok, respJson, hj] at h
      | int n =>
        rw [jsonGetListField, requestJson, runRequest] at h
        simp [raiseForStatus, hok, respJson, hj] at h
      | str s =>
        rw [jsonGetListField, requestJson, runRequest] at h
        simp [raiseForStatus, hok, respJson, hj] at h
      | list xs =>
        rw [jsonGetListField, requestJson, runRequest] at h
        simp [raiseForStatus, hok, respJson, hj] at h
  · exfalso
    have hok : respOk r = false := by simp [respOk]; omega
    rw [jsonGetListField, requestJson, runRequest] at h
    simp [raiseForStatus, hok] at h

/-- A `getD (PyVal.list [])` result equal to `PyVal.list []` means the key
was absent or explicitly the empty list. -/
theorem getD_empty_inv (d : List (String × PyVal)) (key : String)
    (h : (lookupV d key).getD (PyVal.list []) = PyVal.list []) :
    lookupV d key = Option.none ∨ lookupV d key = some (PyVal.list []) := by
  cases hl : lookupV d key with
  | none => exact Or.inl rfl
  | some w => rw [hl] at h; simp at h; exact Or.inr (by rw [h])

/-- **C4 (counterexample).** The success test in the code is `resp.ok`,
i.e. status < 400, not "2xx": a 300-status response with a JSON body lacking
an `issues` array makes `search_issues` return the empty sequence even
though the status is not 2xx. -/
theorem search_issues_empty_on_300 :
    search_issues (Resp.mk 300 "" (some (PyVal.dict []))) = Except.ok (PyVal.list []) ∧
    ¬(200 ≤ (Resp.mk 300 "" (some (PyVal.dict []))).status ∧
      (Resp.mk 300 "" (some (PyVal.dict []))).status ≤ 299) := by
  exact ⟨rfl, by decide⟩

/-- **C4 (amended).** `search_issues` / `get_projects` return an empty
sequence only when the server responded with a successful status in the
`requests` sense (status < 400) and a JSON-object body whose result array is
absent or empty; on every status ≥ 400 the operation raises and never
returns a value, so an empty result is never a masked failure. -/
theorem empty_means_server_confirmed (r : Resp) :
    (400 ≤ r.status →
      (∃ e, search_issues r = Except.error e) ∧
      (∃ e, get_projects r = Except.error e)) ∧
    (search_issues r = Except.ok (PyVal.list []) →
      r.status < 400 ∧ ∃ d, r.json = some (PyVal.dict d) ∧
        (lookupV d "issues" = Option.none ∨
         lookupV d "issues" = some (PyVal.list []))) ∧
    (get_projects r = Except.ok (PyVal.list []) →
      r.status < 400 ∧ ∃ d, r.json = some (PyVal.dict d) ∧
        (lookupV d "values" = Option.none ∨
         lookupV d "values" = some (PyVal.list []))) := by
  refine ⟨fun h => ⟨jsonGetListField_error_of_ge _ r h, jsonGetListField_error_of_ge _ r h⟩,
    fun h => ?_, fun h => ?_⟩
  · obtain ⟨hst, d, hd, hv⟩ := jsonGetListField_ok_inv _ r _ h
    exact ⟨hst, d, hd, getD_empty_inv d _ hv⟩
  · obtain ⟨hst, d, hd, hv⟩ := jsonGetListField_ok_inv _ r _ h
    exact ⟨hst, d, hd, getD_empty_inv d _ hv⟩

/-- Witness for `empty_means_server_confirmed`: a 500 response raises for
both operations; a 200 response with an empty JSON object returns the empty
sequence with the server-confirmed shape. -/
theorem empty_means_server_confirmed_witness :
    (∃ e, search_issues (Resp.mk 500 "oops" Option.none) = Except.error e) ∧
    (∃ e, get_projects (Resp.mk 500 "oops" Option.none) = Except.error e) ∧
    ((Resp.mk 200 "" (some (PyVal.dict []))).status < 400 ∧
      ∃ d, (Resp.mk 200 "" (some (PyVal.dict []))).json = some (PyVal.dict d) ∧
        (lookupV d "issues" = Option.none ∨
         lookupV d "issues" = some (PyVal.list []))) :=
  ⟨((empty_means_server_confirmed (Resp.mk 500 "oops" Option.none)).1 (by decide)).1,
   ((empty_means_server_confirmed (Resp.mk 500 "oops" Option.none)).1 (by decide)).2,
   (empty_means_server_confirmed (Resp.mk 200 "" (some (PyVal.dict [])))).2.1 rfl⟩

/-- Characters of a concatenation of strings. -/
theorem string_toList_append (s t : String) :
    (s ++ t).toList = s.toList ++ t.toList := by
  simp [String.toList]

/-- **C7.** `create_issue` performs no client-side Epic validation —
validation is delegated to the server: with `issueType = "Epic"` and no
`epicName`, the payload simply lacks the epic-name field and the request is
made (an ok response yields a result, never a pre-network `ValidationError`);
when the server rejects it with a Jira-style field-error body (empty
`errorMessages`), the raised error's message contains the raw body and hence
the server's field-level message verbatim. -/
theorem epic_validation_server_delegated
    (pk summary : String) (desc : Option String)
    (rOk : Resp) (j : PyVal) (hok : respOk rOk = true) (hj : rOk.json = some j)
    (rErr : Resp) (herr : 400 ≤ rErr.status)
    (d : List (String × PyVal)) (hjson : rErr.json = some (PyVal.dict d))
    (hem : lookupV d "errorMessages" = some (PyVal.list []))
    (fieldMsg : String) (hsub : fieldMsg.toList <:+: rErr.text.toList) :
    (∃ fs, create_issue_payload pk summary desc "Epic" Option.none =
        PyVal.dict [("fields", PyVal.dict fs)] ∧
      lookupV fs "customfield_10011" = Option.none) ∧
    create_issue rOk = Except.ok j ∧
    (∃ e, create_issue rErr = Except.error e ∧ e.cls = "Exception" ∧
      fieldMsg.toList <:+: e.msg.toList) := by
  refine ⟨?_, ?_, ?_⟩
  · refine ⟨[("project", PyVal.dict [("key", PyVal.str pk)]),
      ("summary", PyVal.str summary),
      ("description", adfDoc (match desc with
        | some s => if s = "" then "" else s
        | Option.none => "")),
      ("issuetype", PyVal.dict [("name", PyVal.str "Epic")])], ?_, by simp [lookupV]⟩
    simp [create_issue_payload, pyTruthyStr]
  · simp [create_issue, requestJson, runRequest, raiseForStatus, hok, respJson, hj]
  · have hokF : respOk rErr = false := by simp [respOk]; omega
    have hmsg : jiraErrMsg rErr = rErr.text := by
      simp [jiraErrMsg, hjson, hem, pyIndex0]
    refine ⟨PyExn.mk "Exception"
        ("Jira API Error " ++ toString rErr.status ++ ": " ++ jiraErrMsg rErr),
      ?_, rfl, ?_⟩
    · simp [create_issue, requestJson, runRequest, raiseForStatus, hokF]
    · rw [hmsg]
      have heq : ("Jira API Error " ++ toString rErr.status ++ ": " ++ rErr.text).toList
          = ("Jira API Error " ++ toString rErr.status ++ ": ").toList
            ++ rErr.text.toList := by
        rw [String.append_assoc, string_toList_append, string_toList_append,
          string_toList_append]
        simp
      show fieldMsg.toList <:+:
        ("Jira API Error " ++ toString rErr.status ++ ": " ++ rErr.text).toList
      rw [heq]
      exact hsub.trans (List.suffix_append _ _).isInfix

/-- Witness for `epic_validation_server_delegated` at a concrete Epic
creation and a concrete server rejection. -/
theorem epic_validation_server_delegated_witness :
    (∃ fs, create_issue_payload "PX" "s" Option.none "Epic" Option.none =
        PyVal.dict [("fields", PyVal.dict fs)] ∧
      lookupV fs "customfield_10011" = Option.none) ∧
    create_issue (Resp.mk 200 "" (some (PyVal.dict [("key", PyVal.str "PX-1")]))) =
      Except.ok (PyVal.dict [("key", PyVal.str "PX-1")]) ∧
    (∃ e, create_issue (Resp.mk 400 "Epic Name is required."
        (some (PyVal.dict [("errorMessages", PyVal.list [])]))) = Except.error e ∧
      e.cls = "Exception" ∧
      ("Epic Name is required.").toList <:+: e.msg.toList) :=
  epic_validation_server_delegated "PX" "s" Option.none
    (Resp.mk 200 "" (some (PyVal.dict [("key", PyVal.str "PX-1")])))
    (PyVal.dict [("key", PyVal.str "PX-1")]) rfl rfl
    (Resp.mk 400 "Epic Name is required."
      (some (PyVal.dict [("errorMessages", PyVal.list [])])))
    (by decide) [("errorMessages", PyVal.list [])] rfl rfl
    "Epic Name is required." (List.infix_refl _)

/-- The item loop of `extract_comment` on encoded two-level items. -/
theorem mapM_mkItem (items : List (String × String)) :
    optMapM (fun item =>
      match item with
      | PyVal.dict ies =>
        if isTextTag ((lookupV ies "type").getD PyVal.none) then
          some [(lookupV ies "text").getD (PyVal.str "")]
        else some []
      | _ => Option.none) (items.map mkItem) =
    some (items.map (fun it => if it.1 == "text" then [PyVal.str it.2] else [])) := by
  induction items with
  | nil => rfl
  | cons it rest ih =>
    by_cases hc : it.1 = "text" <;> simp_all [optMapM, mkItem, lookupV, isTextTag]

/-- Flattening the per-item selections equals filter-then-map. -/
theorem flatten_if_map (items : List (String × String)) :
    (items.map (fun it => if it.1 = "text" then [PyVal.str it.2] else [])).flatten =
    (items.filter (fun it => it.1 == "text")).map (fun it => PyVal.str it.2) := by
  induction items with
  | nil => rfl
  | cons it rest ih =>
    by_cases hc : it.1 = "text" <;> simp_all [List.filter_cons]

/-- `extract_comment`'s block loop on an encoded two-level block collects
exactly the `type == "text"` items' texts, in order. -/
theorem extractBlockTexts_mkBlock (items : List (String × String)) :
    extractBlockTexts (mkBlock items) =
      some ((items.filter (fun it => it.1 == "text")).map (fun it => PyVal.str it.2)) := by
  rw [mkBlock]
  simp only [extractBlockTexts]
  simp [lookupV, pyIter, mapM_mkItem, flatten_if_map]

/-- The block loop over an encoded two-level document. -/
theorem mapM_blocks (blocks : List (List (String × String))) :
    optMapM extractBlockTexts (blocks.map mkBlock) =
      some (blocks.map (fun items =>
        (items.filter (fun it => it.1 == "text")).map (fun it => PyVal.str it.2))) := by
  induction blocks with
  | nil => rfl
  | cons bl rest ih => simp [optMapM, extractBlockTexts_mkBlock, ih]

/-- Flattening per-block selections equals selecting over the flattened
items. -/
theorem flatten_blocks (blocks : List (List (String × String))) :
    (blocks.map (fun items =>
      (items.filter (fun it => it.1 == "text")).map (fun it => PyVal.str it.2))).flatten =
    ((blocks.flatten).filter (fun it => it.1 == "text")).map (fun it => PyVal.str it.2) := by
  induction blocks with
  | nil => rfl
  | cons bl rest ih => simp [List.filter_append, ih]

/-- Extracting the strings back out of a list of wrapped strings. -/
theorem optMapM_str (l : List String) :
    optMapM (fun v => match v with
      | PyVal.str s => some s
      | _ => Option.none) (l.map PyVal.str) = some l := by
  induction l with
  | nil => rfl
  | cons s rest ih => simp [optMapM, ih]

/-- `extract_comment` on any encoded two-level document returns the
space-join of the texts of its `type == "text"` items, in document order. -/
theorem extract_comment_mkDoc (blocks : List (List (String × String))) :
    extract_comment (mkDoc blocks) =
      some (String.intercalate " "
        ((blocks.flatten.filter (fun it => it.1 == "text")).map (fun it => it.2))) := by
  have h1 : extract_comment (mkDoc blocks) =
      (optMapM extractBlockTexts (blocks.map mkBlock)).bind fun collected =>
        (optMapM (fun v => match v with
          | PyVal.str s => some s
          | _ => Option.none) collected.flatten).bind fun strs =>
          some (String.intercalate " " strs) := rfl
  have h2 : (List.filter (fun it => it.1 == "text") blocks.flatten).map
        (fun it => PyVal.str it.2)
      = ((List.filter (fun it => it.1 == "text") blocks.flatten).map
        (fun it => it.2)).map PyVal.str := by
    rw [List.map_map]
    rfl
  rw [h1, mapM_blocks, Option.some_bind, flatten_blocks, h2, optMapM_str,
    Option.some_bind]

/-- **C6 (counterexample).** `extract_comment` is not tolerant of all
malformed trees and does not collect all text leaves: a content array
holding a bare string makes it raise (`Option.none`), and a document whose
text leaf sits three levels deep yields `""` although the tree's text
leaves are `["Deep"]`. -/
theorem extract_comment_raises_or_misses :
    extract_comment (PyVal.dict [("content", PyVal.list [PyVal.str "oops"])]) =
      Option.none ∧
    extract_comment (PyVal.dict [("type", PyVal.str "doc"),
      ("content", PyVal.list [PyVal.dict [("type", PyVal.str "blockquote"),
        ("content", PyVal.list [PyVal.dict [("type", PyVal.str "paragraph"),
          ("content", PyVal.list [PyVal.dict [("type", PyVal.str "text"),
            ("text", PyVal.str "Deep")]])]])]])]) = some "" ∧
    pyTextLeaves 4 (PyVal.dict [("type", PyVal.str "doc"),
      ("content", PyVal.list [PyVal.dict [("type", PyVal.str "blockquote"),
        ("content", PyVal.list [PyVal.dict [("type", PyVal.str "paragraph"),
          ("content", PyVal.list [PyVal.dict [("type", PyVal.str "text"),
            ("text", PyVal.str "Deep")]])]])]])]) = ["Deep"] :=
  ⟨rfl, rfl, rfl⟩

/-- **C6 (amended).** `extract_comment` returns "Hello World" on the
two-paragraph Hello/World document; returns `""` on `None` and on every
non-dict input; and on every two-level document it returns exactly the
`type == "text"` items of the blocks' direct content, joined with single
spaces — text leaves nested deeper are not collected, and malformed trees
can raise rather than yield `""`. -/
theorem extract_comment_two_level (blocks : List (List (String × String)))
    (v : PyVal) (hv : ∀ es, v ≠ PyVal.dict es) :
    extract_comment (mkDoc blocks) =
      some (String.intercalate " "
        ((blocks.flatten.filter (fun it => it.1 == "text")).map (fun it => it.2))) ∧
    extract_comment (mkDoc [[("text", "Hello")], [("text", "World")]]) =
      some "Hello World" ∧
    extract_comment PyVal.none = some "" ∧
    extract_comment v = some "" := by
  refine ⟨extract_comment_mkDoc blocks, rfl, rfl, ?_⟩
  cases v
  case dict es => exact absurd rfl (hv es)
  all_goals unfold extract_comment
  all_goals split <;> rfl

/-- Witness for `extract_comment_two_level` at the Hello/World document and
a string input. -/
theorem extract_comment_two_level_witness :
    extract_comment (mkDoc [[("text", "Hello")], [("text", "World")]]) =
      some "Hello World" ∧
    extract_comment (PyVal.str "zzz") = some "" :=
  ⟨(extract_comment_two_level [[("text", "Hello")], [("text", "World")]]
      (PyVal.str "zzz") (fun _ h => PyVal.noConfusion h)).2.1,
   (extract_comment_two_level [[("text", "Hello")], [("text", "World")]]
      (PyVal.str "zzz") (fun _ h => PyVal.noConfusion h)).2.2.2⟩

/-- Invariant of the pagination loop against a stable-total server: from
offset `s`, with fuel for the remaining pages, the loop appends exactly the
remaining entries and issues exactly `pagesNeeded` further requests. -/
theorem get_worklogs_go_spec (ws : List PyVal) :
    ∀ fuel s acc count, pagesNeeded ws.length s ≤ fuel →
      get_worklogs_go (worklogServer ws) fuel s acc count =
        some (Except.ok (acc ++ ws.drop s, count + pagesNeeded ws.length s)) := by
  intro fuel
  induction fuel with
  | zero =>
    intro s acc count h
    exfalso
    simp [pagesNeeded] at h
  | succ fuel ih =>
    intro s acc count h
    have hreq : requestJson (worklogServer ws s) =
        Except.ok (PyVal.dict
          [("worklogs", PyVal.list ((ws.drop s).take 100)),
           ("total", PyVal.int ws.length)]) := rfl
    rw [get_worklogs_go, hreq]
    have h1 : lookupV [("worklogs", PyVal.list ((ws.drop s).take 100)),
        ("total", PyVal.int ws.length)] "worklogs" =
        some (PyVal.list ((ws.drop s).take 100)) := rfl
    have h2 : lookupV [("worklogs", PyVal.list ((ws.drop s).take 100)),
        ("total", PyVal.int ws.length)] "total" = some (PyVal.int ws.length) := rfl
    simp only [h1, h2, Option.getD_some, pyIter]
    by_cases hle : ws.length ≤ s + 100
    · have hc : ((ws.length : Int) ≤ (s : Int) + 100) := by exact_mod_cast hle
      rw [if_pos hc]
      have htake : (ws.drop s).take 100 = ws.drop s :=
        List.take_of_length_le (by simp; omega)
      have hp : pagesNeeded ws.length s = 1 := by
        simp [pagesNeeded]
        omega
      rw [htake, hp]
    · have hc : ¬((ws.length : Int) ≤ (s : Int) + 100) := by
        intro hcon
        exact hle (by exact_mod_cast hcon)
      rw [if_neg hc]
      have hpp : pagesNeeded ws.length s = pagesNeeded ws.length (s + 100) + 1 := by
        simp only [pagesNeeded]
        omega
      rw [ih (s + 100) (acc ++ (ws.drop s).take 100) (count + 1) (by omega)]
      rw [List.append_assoc, List.drop_take_append_drop]
      have : count + 1 + pagesNeeded ws.length (s + 100) =
          count + pagesNeeded ws.length s := by omega
      rw [this]

/-- **C1.** Against a server holding a stable collection of `N` worklogs
served in pages of at most 100 with a stable total, `get_worklogs`
terminates (any fuel beyond the needed pages suffices), returns exactly the
collection — the pages concatenated in increasing `startAt` order, each
page's order preserved — and issues exactly `⌈N/100⌉` page requests when
`N ≥ 1` and exactly one when `N = 0`. -/
theorem get_worklogs_full_pagination (ws : List PyVal) (extra : Nat) :
    get_worklogs (worklogServer ws) (pagesNeeded ws.length 0 + extra) =
      some (Except.ok (ws, if ws.length = 0 then 1 else (ws.length + 99) / 100)) := by
  rw [get_worklogs, get_worklogs_go_spec ws (pagesNeeded ws.length 0 + extra) 0 [] 0
    (Nat.le_add_right _ _)]
  simp only [List.drop_zero, List.nil_append, Nat.zero_add]
  by_cases h0 : ws.length = 0
  · simp [pagesNeeded, h0]
  · simp [pagesNeeded, h0]
    omega

/-- `'='` is not a data character. -/
theorem stdTable_eq_pad : stdTable '=' = Option.none := by decide

/-- Decoding inverts encoding characterwise: for every 6-bit value, the
urlsafe-encoded character translates back and looks up to that value. -/
theorem decOf_enc : ∀ v, v < 64 →
    stdTable (fromUrlsafeChar (toUrlsafeChar (stdEncChar v))) = some v := by decide

/-- One data character entering the machine at quad position 0. -/
theorem a2bRun_data0 (ch : Char) (v : Nat) (hch : stdTable ch = some v)
    (rest : List Char) (lc pads : Nat) (acc : List Nat) :
    a2bRun (ch :: rest) 0 lc pads acc = a2bRun rest 1 v 0 acc := by
  have hne : ch ≠ '=' := by
    intro he
    rw [he, stdTable_eq_pad] at hch
    exact Option.noConfusion hch
  simp [a2bRun, hne, hch]

/-- One data character entering the machine at quad position 1. -/
theorem a2bRun_data1 (ch : Char) (v : Nat) (hch : stdTable ch = some v)
    (rest : List Char) (lc pads : Nat) (acc : List Nat) :
    a2bRun (ch :: rest) 1 lc pads acc =
      a2bRun rest 2 (v % 16) 0 ((lc * 4 + v / 16) :: acc) := by
  have hne : ch ≠ '=' := by
    intro he
    rw [he, stdTable_eq_pad] at hch
    exact Option.noConfusion hch
  simp [a2bRun, hne, hch]

/-- One data character entering the machine at quad position 2. -/
theorem a2bRun_data2 (ch : Char) (v : Nat) (hch : stdTable ch = some v)
    (rest : List Char) (lc pads : Nat) (acc : List Nat) :
    a2bRun (ch :: rest) 2 lc pads acc =
      a2bRun rest 3 (v % 4) 0 ((lc * 16 + v / 4) :: acc) := by
  have hne : ch ≠ '=' := by
    intro he
    rw [he, stdTable_eq_pad] at hch
    exact Option.noConfusion hch
  simp [a2bRun, hne, hch]

/-- One data character entering the machine at quad position 3. -/
theorem a2bRun_data3 (ch : Char) (v : Nat) (hch : stdTable ch = some v)
    (rest : List Char) (lc pads : Nat) (acc : List Nat) :
    a2bRun (ch :: rest) 3 lc pads acc =
      a2bRun rest 0 0 0 ((lc * 64 + v) :: acc) := by
  have hne : ch ≠ '=' := by
    intro he
    rw [he, stdTable_eq_pad] at hch
    exact Option.noConfusion hch
  simp [a2bRun, hne, hch]

/-- A first pad after two data characters is recorded. -/
theorem a2bRun_pad_step (rest : List Char) (lc : Nat) (acc : List Nat) :
    a2bRun ('=' :: rest) 2 lc 0 acc = a2bRun rest 2 lc 1 acc := rfl

/-- A second pad after two data characters completes the quad and stops. -/
theorem a2bRun_pad_done2 (rest : List Char) (lc : Nat) (acc : List Nat) :
    a2bRun ('=' :: rest) 2 lc 1 acc = some acc.reverse := rfl

/-- A pad after three data characters completes the quad and stops. -/
theorem a2bRun_pad_done3 (rest : List Char) (lc : Nat) (acc : List Nat) :
    a2bRun ('=' :: rest) 3 lc 0 acc = some acc.reverse := rfl

/-- Running the decoder over the urlsafe encoding of any byte sequence
recovers exactly those bytes (with the already-emitted output `acc`
in front). -/
theorem a2bRun_encode (bs : List Nat) :
    ∀ acc : List Nat, (∀ b ∈ bs, b < 256) →
      a2bRun (((b64encodeChars bs).map toUrlsafeChar).map fromUrlsafeChar) 0 0 0 acc =
        some (acc.reverse ++ bs) := by
  induction bs using b64encodeChars.induct with
  | case1 =>
    intro acc _
    simp [b64encodeChars, a2bRun]
  | case2 a =>
    intro acc h
    have ha : a < 256 := h a (by simp)
    simp only [b64encodeChars, List.map_cons, List.map_nil]
    rw [a2bRun_data0 _ _ (decOf_enc _ (by omega)),
      a2bRun_data1 _ _ (decOf_enc _ (by omega))]
    rw [show fromUrlsafeChar (toUrlsafeChar '=') = '=' from rfl]
    rw [a2bRun_pad_step, a2bRun_pad_done2]
    have e1 : a / 4 * 4 + a % 4 * 16 / 16 = a := by omega
    rw [e1, List.reverse_cons]
  | case3 a b =>
    intro acc h
    have ha : a < 256 := h a (by simp)
    have hb : b < 256 := h b (by simp)
    simp only [b64encodeChars, List.map_cons, List.map_nil]
    rw [a2bRun_data0 _ _ (decOf_enc _ (by omega)),
      a2bRun_data1 _ _ (decOf_enc _ (by omega)),
      a2bRun_data2 _ _ (decOf_enc _ (by omega))]
    rw [show fromUrlsafeChar (toUrlsafeChar '=') = '=' from rfl]
    rw [a2bRun_pad_done3]
    have e1 : a / 4 * 4 + (a % 4 * 16 + b / 16) / 16 = a := by omega
    have e2 : (a % 4 * 16 + b / 16) % 16 * 16 + b % 16 * 4 / 4 = b := by omega
    rw [e1, e2, List.reverse_cons, List.reverse_cons, List.append_assoc]
    rfl
  | case4 a b c rest ih =>
    intro acc h
    have ha : a < 256 := h a (by simp)
    have hb : b < 256 := h b (by simp)
    have hc : c < 256 := h c (by simp)
    simp only [b64encodeChars, List.map_cons]
    rw [a2bRun_data0 _ _ (decOf_enc _ (by omega)),
      a2bRun_data1 _ _ (decOf_enc _ (by omega)),
      a2bRun_data2 _ _ (decOf_enc _ (by omega)),
      a2bRun_data3 _ _ (decOf_enc _ (by omega))]
    have e1 : a / 4 * 4 + (a % 4 * 16 + b / 16) / 16 = a := by omega
    have e2 : (a % 4 * 16 + b / 16) % 16 * 16 + (b % 16 * 4 + c / 64) / 4 = b := by
      omega
    have e3 : (b % 16 * 4 + c / 64) % 4 * 64 + c % 64 = c := by omega
    rw [e1, e2, e3]
    rw [ih (c :: b :: a :: acc) (fun x hx => h x (by simp [hx]))]
    simp

/-- **C9 (counterexample).** `decode` does not return `""` on every input
that is not valid urlsafe base64: characters outside the alphabet are
discarded before decoding, so `decode("QQ==!")` — not valid urlsafe base64 —
returns `"A"` (UTF-8 bytes `[65]`), not `""` (bytes `[]`). -/
theorem decode_junk_not_empty :
    appDecode ("QQ==!".toList) = [65] ∧ ([65] : List Nat) ≠ [] ∧
    specValidUrlsafeB64 ("QQ==!".toList) = false := by
  refine ⟨by decide, by decide, by decide⟩

/-- **C9 (amended).** `decode(encode(s)) = s` for every string `s` (stated
on the UTF-8 bytes of `s`: arbitrary valid-UTF-8 byte sequences), and
`decode` is total — failures of base64 or UTF-8 decoding yield `""` — but
inputs that are not valid urlsafe base64 can still decode to a non-empty
string because non-alphabet characters are discarded first. -/
theorem decode_encode_roundtrip (bs : List Nat) (hb : ∀ b ∈ bs, b < 256)
    (hv : utf8Valid bs = true) :
    appDecode (appEncode bs) = bs := by
  rw [appDecode, appEncode, urlsafe_b64decode, urlsafe_b64encode]
  rw [a2bRun_encode bs [] hb]
  simp [hv]

/-- Witness for `decode_encode_roundtrip` on the bytes of `"hi"`. -/
theorem decode_encode_roundtrip_witness :
    (∀ b ∈ ([104, 105] : List Nat), b < 256) ∧
    utf8Valid [104, 105] = true ∧
    appDecode (appEncode [104, 105]) = [104, 105] :=
  ⟨by decide, by decide, decode_encode_roundtrip [104, 105] (by decide) (by decide)⟩
